import Mathlib

/-!
Verification of the arcdps update notifier (`arcdps_updater.py`).

The Python source is shallowly embedded: each function of the script becomes
a Lean definition over explicit inputs, fallible code returns `Option`, and
the `__main__` orchestration becomes a pure `run` function from the run's
external inputs (parsed document, state-file content, webhook list, checksum
fetch result, per-subscriber delivery outcomes) to its observable effects
(delivery attempts, the persisted record, whether a `.old` backup was made).
-/

set_option autoImplicit false

namespace ArcdpsUpdater

/-! ### Diff engine (`test_for_update` and the loop of `send_update_message`) -/

/-- Embedding of `test_for_update`: the update decision is
`changelog[0] != last_changes_data["changes"][0]` (exact string inequality).
Indexing an empty list raises `IndexError` in Python, modelled as `none`.
The staleness check inside the function only logs and does not affect the
returned value, so it is omitted here. -/
def test_for_update (changelog : List String) (old_changes : List String) : Option Bool :=
  match changelog.head?, old_changes.head? with
  | some c, some o => some (c != o)
  | _, _ => none

/-- The new-entries loop of `send_update_message`, returned as a list:
iterate `changelog` in order and stop (exclusive) at the first entry that
occurs anywhere in `old_changelog`. -/
def new_changes : List String → List String → List String
  | [], _ => []
  | c :: rest, old => if old.contains c then [] else c :: new_changes rest old

/-- The string `changes` accumulated by the loop in `send_update_message`:
each new entry followed by a newline. -/
def changes_string : List String → List String → String
  | [], _ => ""
  | c :: rest, old => if old.contains c then "" else c ++ "\n" ++ changes_string rest old

/-! ### Changelog extractor (`parse_html`)

A parsed document is modelled as the flat list of its nodes in document
order (the order of BeautifulSoup's `next_elements` traversal).  A node
carries its tag name (`none` for text nodes) and its `.string` attribute
(`none` for tags with more than one child). -/

/-- Python `str.strip()` on the underlying character list: remove leading
and trailing whitespace.  (Defined structurally so that it evaluates inside
the kernel; `String.trim` computes the same result but is not
kernel-reducible.) -/
def strip_chars (l : List Char) : List Char :=
  ((l.dropWhile Char.isWhitespace).reverse.dropWhile Char.isWhitespace).reverse

/-- Python `str.strip()`. -/
def py_strip (s : String) : String :=
  ⟨strip_chars s.data⟩

structure HtmlNode where
  name : Option String
  str : Option String
deriving DecidableEq, Repr

abbrev Document := List HtmlNode

/-- The node matched by `soup.find("b", string="changes")`. -/
def is_changes_marker (e : HtmlNode) : Bool :=
  e.name == some "b" && e.str == some "changes"

/-- The end-of-section test `element.name == "b" and element.string == "download"`. -/
def is_download_marker (e : HtmlNode) : Bool :=
  e.name == some "b" && e.str == some "download"

/-- `soup.find("b", string="changes")` followed by `.next_elements`: locate
the first matching node and return the remaining nodes in document order.
When no node matches, `find` returns `None` and the subsequent attribute
access raises (modelled as `none`). -/
def find_b_changes : Document → Option Document
  | [] => none
  | e :: rest => if is_changes_marker e then some rest else find_b_changes rest

/-- The collection loop of `parse_html`: for each element, append its
stripped `.string` when present, then stop after the first
`<b>download</b>` node (whose own label has just been appended).  Running
off the end of the document simply ends the loop. -/
def collect_changelog : Document → List String
  | [] => []
  | e :: rest =>
    (match e.str with
     | some s => [py_strip s]
     | none => []) ++
    (if is_download_marker e then [] else collect_changelog rest)

/-- Embedding of `parse_html`: find the marker, collect, then slice
`changelog[1:-2]` (drop the first item and the last two items). -/
def parse_html (doc : Document) : Option (List String) :=
  match find_b_changes doc with
  | none => none
  | some rest => some ((((collect_changelog rest).drop 1).dropLast).dropLast)

/-- Whether the end marker occurs in a node sequence. -/
def has_end_marker (d : Document) : Bool :=
  d.any (fun e => is_download_marker e)

/-- Modelled from the spec for comparison with `parse_html` (the spec's
collection rule): collect the trimmed text of every text-bearing node,
stopping at and excluding the end marker itself. -/
def collect_spec : Document → List String
  | [] => []
  | e :: rest =>
    if is_download_marker e then []
    else
      (match e.str with
       | some s => [py_strip s]
       | none => []) ++ collect_spec rest

/-- Remove trailing whitespace-only items. -/
def drop_trailing_ws (l : List String) : List String :=
  (l.reverse.dropWhile (fun s => py_strip s == "")).reverse

/-- Modelled from the spec for comparison with `parse_html`: drop the
leading collected item and any trailing whitespace-only artifacts. -/
def extract_spec (doc : Document) : Option (List String) :=
  match find_b_changes doc with
  | none => none
  | some rest => some (drop_trailing_ws ((collect_spec rest).drop 1))

/-! ### State store (`load_last_changes` / `write_last_changes`) -/

/-- The possible contents of `last_changes.json` as seen by
`load_last_changes`: absent, not JSON-decodable, or decoded with each of
the two required keys possibly missing. -/
inductive StateFile
  | missing
  | corrupt
  | decoded (timestamp : Option String) (changes : Option (List String))
deriving DecidableEq, Repr

/-- Outcome of `load_last_changes`: either the run was seeded with a fresh
baseline and exited (`sys.exit(1)`), recording whether the old file was
renamed to `.old` first, or the persisted record was loaded. -/
inductive LoadResult
  | seeded (backupMade : Bool)
  | loaded (changes : List String) (timestamp : String)
deriving DecidableEq, Repr

/-- Embedding of `load_last_changes`: a missing file takes the
`FileNotFoundError` branch (write fresh state, no backup); a non-decodable
file takes the `JSONDecodeError` branch (rename to `.old`, then write fresh
state); a decoded object missing `"timestamp"` or `"changes"` raises
`FileNotFoundError` on purpose and therefore also takes the no-backup
branch. -/
def load_last_changes (file : StateFile) : LoadResult :=
  match file with
  | .missing => .seeded false
  | .corrupt => .seeded true
  | .decoded ts ch =>
    match ts, ch with
    | some t, some c => .loaded c t
    | _, _ => .seeded false

/-! ### Notifier (`send_update_message`) and orchestrator (`__main__`) -/

/-- Per-subscriber delivery outcome; `timedOut` and `rejected` are the two
exception classes caught inside the delivery loop. -/
inductive DeliveryOutcome
  | delivered
  | timedOut
  | rejected (status : Nat)
deriving DecidableEq, Repr

/-- One record of `webhooks.json`; `username` and `avatar_url` may be JSON
`null` (`none`) or a string, and Python truthiness treats both `null` and
`""` as falsy. -/
structure Webhook where
  url : String
  username : Option String
  avatar_url : Option String
deriving DecidableEq, Repr

/-- Python truthiness of an optional string. -/
def py_truthy : Option String → Bool
  | none => false
  | some s => s != ""

structure Embed where
  color : Nat
  title : String
  description : String
  footer : String
deriving DecidableEq, Repr

structure Payload where
  content : String
  embed : Embed
  username : String
  avatar_url : String
deriving DecidableEq, Repr

/-- One POST attempt of the delivery loop: target URL, body, and outcome. -/
structure Attempt where
  url : String
  payload : Payload
  outcome : DeliveryOutcome
deriving DecidableEq, Repr

def download_url : String := "https://www.deltaconnected.com/arcdps/x64/"

/-- The fixed `content` field of the outbound body. -/
def update_content : String := "Ein neues ArcDPS Update ist verfügbar! :partying_face:"

/-- The embed built in `send_update_message` from the accumulated changes
string and the md5 checksum. -/
def update_embed (changes md5 : String) : Embed :=
  { color := 296359
    title := "changes"
    description := changes ++ "\n" ++ "[Link zum Download](" ++ download_url ++ ")\n"
      ++ "md5sum: `" ++ md5 ++ "`"
    footer := "Webhook von Joma#5663" }

/-- The body actually POSTed for one webhook: shared content and embed,
with the per-subscriber `username` / `avatar_url` overrides of the loop. -/
def payload_for (changes md5 default_username : String) (w : Webhook) : Payload :=
  { content := update_content
    embed := update_embed changes md5
    username := if py_truthy w.username then w.username.getD "" else default_username
    avatar_url := if py_truthy w.avatar_url then w.avatar_url.getD "" else "" }

/-- The delivery loop: every webhook is POSTed in order; `Timeout` and
`HTTPError` are caught and logged, so the loop always continues to the next
webhook.  The outcome of attempt `i` is the `i`-th supplied outcome
(defaulting to `delivered`). -/
def deliver_loop : List Webhook → List DeliveryOutcome → (Webhook → Payload) → List Attempt
  | [], _, _ => []
  | w :: ws, outs, mk =>
    ⟨w.url, mk w, outs.headD .delivered⟩ :: deliver_loop ws outs.tail mk

/-- Embedding of `send_update_message` after `load_webhooks` and
`get_checksum` have succeeded: build the shared body from the accumulated
changes string and checksum, then run the delivery loop. -/
def send_update_message (changelog old_changelog : List String) (webhooks : List Webhook)
    (md5 default_username : String) (outcomes : List DeliveryOutcome) : List Attempt :=
  deliver_loop webhooks outcomes
    (payload_for (changes_string changelog old_changelog) md5 default_username)

/-- Observable effects of one run of `__main__`: the delivery attempts
made, the record written to `last_changes.json` (with the timestamp taken
at write time), and whether the old state file was renamed to `.old`. -/
structure RunResult where
  posts : List Attempt
  persisted : Option (List String × String)
  backupMade : Bool
deriving DecidableEq, Repr

/-- Embedding of `__main__` (given a successful page fetch): parse the
document (an exception aborts the run with no effects), load or seed the
persisted state (seeding writes a fresh baseline and exits), decide the
update, and either persist directly (no change) or notify and then
persist.  `load_webhooks` or `get_checksum` failure calls `sys.exit(1)`
before any delivery attempt and before persisting. -/
def run (doc : Document) (file : StateFile) (webhooks_file : Option (List Webhook))
    (checksum : Option String) (outcomes : List DeliveryOutcome)
    (now default_username : String) : RunResult :=
  match parse_html doc with
  | none => ⟨[], none, false⟩
  | some changelog =>
    match load_last_changes file with
    | .seeded b => ⟨[], some (changelog, now), b⟩
    | .loaded old _ts =>
      match test_for_update changelog old with
      | none => ⟨[], none, false⟩
      | some false => ⟨[], some (changelog, now), false⟩
      | some true =>
        match webhooks_file with
        | none => ⟨[], none, false⟩
        | some webhooks =>
          match checksum with
          | none => ⟨[], none, false⟩
          | some md5 =>
            ⟨send_update_message changelog old webhooks md5 default_username outcomes,
             some (changelog, now), false⟩

/-! ### Concrete documents and inputs used by witnesses and counterexamples -/

def b_changes_node : HtmlNode := ⟨some "b", some "changes"⟩

def b_download_node : HtmlNode := ⟨some "b", some "download"⟩

def text_node (s : String) : HtmlNode := ⟨none, some s⟩

/-- A well-formed page: one section marker, one entry `"e1"`, one newline
artifact, then the end marker.  `parse_html` yields `["e1"]`. -/
def sample_doc : Document :=
  [b_changes_node, text_node "changes", text_node "e1", text_node "\n", b_download_node]

/-- A persisted state whose newest entry `"e0"` differs from `"e1"`. -/
def sample_file : StateFile := .decoded (some "t0") (some ["e0"])

/-- A document with two section markers; `find` silently picks the first. -/
def two_marker_doc : Document :=
  [b_changes_node, text_node "changes", b_changes_node, text_node "changes",
   text_node "entry", text_node "\n", b_download_node]

/-- A document whose last changelog line `"entry1"` directly precedes the
end marker, with no whitespace artifact in between. -/
def tail_line_doc : Document :=
  [b_changes_node, text_node "changes", text_node "entry1", b_download_node]

/-- Three subscribers for the partial-delivery example. -/
def ws3 : List Webhook := [⟨"u1", none, none⟩, ⟨"u2", none, none⟩, ⟨"u3", none, none⟩]

/-- Outcomes where the second subscriber times out. -/
def outs3 : List DeliveryOutcome := [.delivered, .timedOut, .delivered]

/-- Subscribers with a set, an absent, and an empty-string identity override. -/
def ws_mixed : List Webhook :=
  [⟨"u1", some "Bob", some "av"⟩, ⟨"u2", none, none⟩, ⟨"u3", some "", some ""⟩]

/-! ### Helper lemmas -/

theorem string_foldl_append_eq (L : List String) (a : String) :
    L.foldl (fun r s => r ++ s) a = a ++ String.join L := by
  induction L generalizing a with
  | nil => simp [String.join]
  | cons x xs ih =>
    simp only [String.join, List.foldl_cons] at *
    rw [ih (a ++ x), ih ("" ++ x)]
    simp [String.append_assoc]

theorem changes_string_eq_join (current old : List String) :
    changes_string current old =
      String.join ((new_changes current old).map (fun c => c ++ "\n")) := by
  induction current with
  | nil => rfl
  | cons c rest ih =>
    by_cases h : c ∈ old
    · simp [changes_string, new_changes, h, String.join]
    · simp [changes_string, new_changes, h, ih, String.join]
      rw [string_foldl_append_eq, string_foldl_append_eq]
      simp [String.append_assoc]

theorem find_b_changes_eq_none_iff (doc : Document) :
    find_b_changes doc = none ↔ ∀ e ∈ doc, is_changes_marker e = false := by
  induction doc with
  | nil => simp [find_b_changes]
  | cons e rest ih =>
    by_cases h : is_changes_marker e
    · simp [find_b_changes, h]
    · rw [show find_b_changes (e :: rest) = find_b_changes rest by
        simp [find_b_changes, h], ih]
      simp [List.forall_mem_cons, h]

theorem parse_html_eq_none_iff (doc : Document) :
    parse_html doc = none ↔ find_b_changes doc = none := by
  unfold parse_html
  cases h : find_b_changes doc <;> simp

theorem collect_changelog_eq_spec_append (d : Document) (h : has_end_marker d = true) :
    collect_changelog d = collect_spec d ++ ["download"] := by
  induction d with
  | nil => simp [has_end_marker] at h
  | cons e rest ih =>
    by_cases hm : is_download_marker e
    · have hstr : e.str = some "download" := by
        have hm' := hm
        simp only [is_download_marker, Bool.and_eq_true, beq_iff_eq] at hm'
        exact hm'.2
      have htrim : py_strip "download" = "download" := by decide
      simp [collect_changelog, collect_spec, hm, hstr, htrim]
    · have hrest : has_end_marker rest = true := by
        have h' := h
        simp only [has_end_marker, List.any_cons, Bool.or_eq_true] at h'
        rcases h' with h' | h'
        · exact absurd h' hm
        · simpa [has_end_marker] using h'
      cases hstr : e.str with
      | none => simp [collect_changelog, collect_spec, hm, hstr, ih hrest]
      | some s => simp [collect_changelog, collect_spec, hm, hstr, ih hrest]

theorem slice_append_two (l : List String) (x y : String) :
    (((l ++ [x, y]).drop 1).dropLast).dropLast = l.drop 1 := by
  cases l with
  | nil => simp
  | cons a t =>
    have h2 : ((a :: t) ++ [x, y]).drop 1 = t ++ [x, y] := by simp
    have h3 : (t ++ [x, y]).dropLast = t ++ [x] := by
      rw [show t ++ [x, y] = (t ++ [x]) ++ [y] by simp, List.dropLast_concat]
    rw [h2, h3, List.dropLast_concat]
    rfl

theorem drop_trailing_ws_append_ws (l : List String) (w : String)
    (hw : py_strip w = "") :
    drop_trailing_ws (l ++ [w]) = drop_trailing_ws l := by
  unfold drop_trailing_ws
  rw [List.reverse_append]
  simp only [List.reverse_cons, List.reverse_nil, List.nil_append, List.cons_append,
    List.singleton_append]
  rw [List.dropWhile_cons, if_pos (by rw [hw]; decide)]

theorem drop_trailing_ws_eq_self (l : List String)
    (h : ∀ la, l.getLast? = some la → py_strip la ≠ "") :
    drop_trailing_ws l = l := by
  cases hrev : l.reverse with
  | nil =>
    have hl : l = [] := by simpa using congrArg List.reverse hrev
    simp [hl, drop_trailing_ws]
  | cons a t =>
    have hla : l.getLast? = some a := by
      rw [← List.head?_reverse, hrev]
      rfl
    have hne : (py_strip a == "") = false := by
      have := h a hla
      simpa using this
    unfold drop_trailing_ws
    rw [hrev, List.dropWhile_cons, if_neg (by simp [hne]), ← hrev, List.reverse_reverse]

theorem deliver_loop_map_url (ws : List Webhook) (outs : List DeliveryOutcome)
    (mk : Webhook → Payload) :
    (deliver_loop ws outs mk).map (fun a => a.url) = ws.map (fun w => w.url) := by
  induction ws generalizing outs with
  | nil => rfl
  | cons w rest ih => simp [deliver_loop, ih]

theorem deliver_loop_map_payload (ws : List Webhook) (outs : List DeliveryOutcome)
    (mk : Webhook → Payload) :
    (deliver_loop ws outs mk).map (fun a => a.payload) = ws.map mk := by
  induction ws generalizing outs with
  | nil => rfl
  | cons w rest ih => simp [deliver_loop, ih]

theorem deliver_loop_map_outcome (ws : List Webhook) (outs : List DeliveryOutcome)
    (mk : Webhook → Payload) (h : outs.length = ws.length) :
    (deliver_loop ws outs mk).map (fun a => a.outcome) = outs := by
  induction ws generalizing outs with
  | nil =>
    cases outs with
    | nil => rfl
    | cons o os => simp at h
  | cons w rest ih =>
    cases outs with
    | nil => simp at h
    | cons o os =>
      simp only [List.length_cons, Nat.succ.injEq] at h
      simp [deliver_loop, ih os h]

theorem deliver_loop_map_pfield {α : Type} (f : Payload → α) (ws : List Webhook)
    (outs : List DeliveryOutcome) (mk : Webhook → Payload) :
    (deliver_loop ws outs mk).map (fun a => f a.payload) = ws.map (fun w => f (mk w)) := by
  induction ws generalizing outs with
  | nil => rfl
  | cons w rest ih => simp [deliver_loop, ih]

theorem deliver_loop_payload_mem (ws : List Webhook) (outs : List DeliveryOutcome)
    (mk : Webhook → Payload) :
    ∀ a ∈ deliver_loop ws outs mk, ∃ w ∈ ws, a.payload = mk w := by
  induction ws generalizing outs with
  | nil => intro a ha; simp [deliver_loop] at ha
  | cons w rest ih =>
    intro a ha
    simp only [deliver_loop, List.mem_cons] at ha
    rcases ha with ha | ha
    · exact ⟨w, List.mem_cons_self w rest, by rw [ha]⟩
    · obtain ⟨w', hw', hpay⟩ := ih outs.tail a ha
      exact ⟨w', List.mem_cons_of_mem w hw', hpay⟩

theorem test_for_update_self (changelog : List String) :
    test_for_update changelog changelog = none ∨
      test_for_update changelog changelog = some false := by
  cases changelog with
  | nil => left; rfl
  | cons c cs => right; simp [test_for_update]

/-! ### Claims C1-C3 (diff engine) -/

/-- C1 counterexample: with current snapshot `["a"]` and persisted entries
`["b", "a"]`, `test_for_update` declares an update (the newest entries
differ) yet the new-entries computation is empty, because `"a"` occurs at a
non-initial position of the persisted entries.  The update decision and the
new-entries computation therefore do not agree. -/
theorem C1_counterexample :
    test_for_update ["a"] ["b", "a"] = some true ∧
      new_changes ["a"] ["b", "a"] = [] := by
  constructor <;> decide

/-- C1 (amended): one direction of the agreement does hold: whenever the
persisted entries are non-empty and the computed new-entries list is
non-empty, an update is declared.  The converse fails (see the
counterexample): `test_for_update` can return `true` while the new-entries
list is empty, when `current[0]` occurs at a non-initial position of the
persisted entries. -/
theorem C1_amended_nonempty_new_entries_implies_update
    (current old : List String) (ho : old ≠ [])
    (h : new_changes current old ≠ []) :
    test_for_update current old = some true := by
  cases current with
  | nil => simp [new_changes] at h
  | cons c cs =>
    cases old with
    | nil => exact absurd rfl ho
    | cons o os =>
      by_cases hc : c ∈ o :: os
      · simp [new_changes, hc] at h
      · have hne : c ≠ o := by
          intro e
          exact hc (e ▸ List.mem_cons_self c os)
        simp [test_for_update, bne_iff_ne, hne]

theorem C1_amended_witness :
    test_for_update ["n", "a"] ["a"] = some true :=
  C1_amended_nonempty_new_entries_implies_update ["n", "a"] ["a"]
    (by decide) (by decide)

/-- C2: for non-empty current and persisted entry lists, `test_for_update`
returns `true` exactly when the newest current entry differs from the newest
persisted entry under exact string equality. -/
theorem C2_update_iff_newest_entry_differs (current old : List String)
    (hc : current ≠ []) (ho : old ≠ []) :
    test_for_update current old = some true ↔ current.head hc ≠ old.head ho := by
  cases current with
  | nil => exact absurd rfl hc
  | cons c cs =>
    cases old with
    | nil => exact absurd rfl ho
    | cons o os => simp [test_for_update, bne_iff_ne]

/-- C2 witness, the spec's concrete example: persisted newest entry
`"2024-01-01: fixed crash"`, current snapshot newest entry
`"2024-01-02: new feature"`. -/
theorem C2_update_iff_newest_entry_differs_witness :
    test_for_update
        ["2024-01-02: new feature", "2024-01-01: fixed crash", "2023-12-01: older"]
        ["2024-01-01: fixed crash"] = some true :=
  (C2_update_iff_newest_entry_differs
      ["2024-01-02: new feature", "2024-01-01: fixed crash", "2023-12-01: older"]
      ["2024-01-01: fixed crash"] (by decide) (by decide)).mpr (by decide)

/-- C3: the new-entries list is exactly the longest initial segment of the
current snapshot whose entries occur nowhere among the previously persisted
entries (iteration stops, exclusively, at the first previously seen entry);
and when no entry of the snapshot was previously seen, the entire snapshot
is new. -/
theorem C3_new_entries_initial_segment (current old : List String) :
    new_changes current old = current.takeWhile (fun c => !old.contains c) ∧
      ((∀ c ∈ current, ¬ c ∈ old) → new_changes current old = current) := by
  induction current with
  | nil => exact ⟨rfl, fun _ => rfl⟩
  | cons c rest ih =>
    constructor
    · by_cases h : c ∈ old
      · simp [new_changes, h, List.takeWhile_cons]
      · simp [new_changes, h, List.takeWhile_cons, ih.1]
    · intro hall
      have hc : ¬ c ∈ old := hall c (List.mem_cons_self c rest)
      simp [new_changes, hc]
      exact ih.2 fun x hx => hall x (List.mem_cons_of_mem c hx)

theorem C3_new_entries_initial_segment_witness :
    new_changes ["x", "y"] ["z"] = ["x", "y"] :=
  (C3_new_entries_initial_segment ["x", "y"] ["z"]).2 (by decide)

/-! ### Claims C4 and C9 (extractor) -/

/-- C4 counterexample: `two_marker_doc` contains two section-start markers,
yet extraction does not fail: `find` silently picks the first marker and
`parse_html` returns a snapshot. -/
theorem C4_counterexample :
    two_marker_doc.countP (fun e => is_changes_marker e) = 2 ∧
      parse_html two_marker_doc = some ["changes", "changes", "entry"] := by
  constructor <;> decide

/-- C4 (amended): extraction fails (the `find` result is `None` and the
subsequent attribute access raises) precisely when the document contains
no section-start marker at all; with one or more markers the first one is
silently used, and a missing end marker does not make extraction fail.
When extraction does fail, the run aborts with no notification call and
nothing persisted. -/
theorem C4_amended_extraction_fails_iff_no_marker (doc : Document) :
    (parse_html doc = none ↔ ∀ e ∈ doc, is_changes_marker e = false) ∧
      (parse_html doc = none →
        ∀ (file : StateFile) (whf : Option (List Webhook)) (cs : Option String)
          (outs : List DeliveryOutcome) (now du : String),
          (run doc file whf cs outs now du).posts = [] ∧
            (run doc file whf cs outs now du).persisted = none) := by
  constructor
  · rw [parse_html_eq_none_iff]
    exact find_b_changes_eq_none_iff doc
  · intro hp file whf cs outs now du
    simp [run, hp]

theorem C4_amended_witness :
    (run [] .missing none none [] "t" "u").posts = [] ∧
      (run [] .missing none none [] "t" "u").persisted = none :=
  (C4_amended_extraction_fails_iff_no_marker []).2 (by decide) .missing none none [] "t" "u"

/-- C9 counterexample: in `tail_line_doc` the non-whitespace changelog line
`"entry1"` directly precedes the end marker.  The slice `changelog[1:-2]`
drops the last two collected items unconditionally, so `parse_html` drops
the non-whitespace line `"entry1"`, while removing only trailing
whitespace-only artifacts (as the claim describes, `extract_spec`) would
keep it. -/
theorem C9_counterexample :
    parse_html tail_line_doc = some [] ∧
      extract_spec tail_line_doc = some ["entry1"] := by
  constructor <;> decide

/-- C9 (amended): `parse_html` removes the leading collected item and the
final two collected items unconditionally (the end marker's own label and
the single item before it, whatever its content).  This coincides with the
claim's description — leading item plus trailing whitespace-only artifacts
removed — exactly when the item directly preceding the end marker is
whitespace-only and the rest of the tail is not; a non-whitespace line
directly preceding the end marker is dropped instead (see the
counterexample). -/
theorem C9_amended_slice_drops_last_two (doc rest : Document) (xs : List String)
    (w : String)
    (hf : find_b_changes doc = some rest)
    (hm : has_end_marker rest = true)
    (hs : collect_spec rest = xs ++ [w])
    (hw : py_strip w = "")
    (hx : ∀ la, (xs.drop 1).getLast? = some la → py_strip la ≠ "") :
    parse_html doc = some (xs.drop 1) ∧ extract_spec doc = some (xs.drop 1) := by
  have hcol : collect_changelog rest = xs ++ [w, "download"] := by
    rw [collect_changelog_eq_spec_append rest hm, hs]
    simp
  constructor
  · unfold parse_html
    rw [hf]
    dsimp only
    rw [hcol, slice_append_two]
  · unfold extract_spec
    rw [hf]
    dsimp only
    rw [hs]
    cases xs with
    | nil => simp [drop_trailing_ws]
    | cons a t =>
      have hdrop : ((a :: t) ++ [w]).drop 1 = t ++ [w] := by simp
      rw [hdrop, drop_trailing_ws_append_ws t w hw, drop_trailing_ws_eq_self t hx]
      rfl

theorem C9_amended_witness :
    parse_html sample_doc = some ["e1"] ∧ extract_spec sample_doc = some ["e1"] :=
  C9_amended_slice_drops_last_two sample_doc
    [text_node "changes", text_node "e1", text_node "\n", b_download_node]
    ["changes", "e1"] "" (by decide) (by decide) (by decide) (by decide)
    (by
      intro la hla
      simp at hla
      subst hla
      decide)

/-! ### Claims C5-C8 and C10 (orchestrator and notifier) -/

/-- C5: whenever an update is detected and notification is attempted (the
webhook list and checksum were obtained), the run persists the current
snapshot with the current timestamp regardless of the per-subscriber
delivery outcomes (the outcomes `outs` are universally quantified, so this
covers the case where every delivery failed); and any subsequent run whose
baseline is that persisted record and whose extraction yields the same
snapshot makes no delivery attempt, so the same detected change is never
re-announced. -/
theorem C5_persist_after_notification (doc : Document) (file : StateFile)
    (ws : List Webhook) (md5 : String) (outs : List DeliveryOutcome)
    (now du : String) (changelog old : List String) (ts : String)
    (hp : parse_html doc = some changelog)
    (hl : load_last_changes file = .loaded old ts)
    (hu : test_for_update changelog old = some true) :
    (run doc file (some ws) (some md5) outs now du).persisted = some (changelog, now) ∧
      ∀ (whf2 : Option (List Webhook)) (cs2 : Option String)
        (outs2 : List DeliveryOutcome) (now2 du2 : String),
        (run doc (.decoded (some now) (some changelog)) whf2 cs2 outs2 now2 du2).posts
          = [] := by
  constructor
  · simp [run, hp, hl, hu]
  · intro whf2 cs2 outs2 now2 du2
    rcases test_for_update_self changelog with h | h <;>
      simp [run, hp, load_last_changes, h]

theorem C5_persist_after_notification_witness :
    (run sample_doc sample_file (some [⟨"u1", none, none⟩]) (some "m") [.timedOut]
        "t1" "D").persisted = some (["e1"], "t1") ∧
      ∀ (whf2 : Option (List Webhook)) (cs2 : Option String)
        (outs2 : List DeliveryOutcome) (now2 du2 : String),
        (run sample_doc (.decoded (some "t1") (some ["e1"])) whf2 cs2 outs2 now2
            du2).posts = [] :=
  C5_persist_after_notification sample_doc sample_file [⟨"u1", none, none⟩] "m"
    [.timedOut] "t1" "D" ["e1"] ["e0"] "t0" (by decide) (by decide) (by decide)

/-- C6: on the notification path a delivery attempt is made for every
subscriber, in order, no matter what the individual outcomes are (one
subscriber's timeout or rejection never prevents the remaining attempts),
the recorded outcomes are exactly the per-subscriber outcomes supplied,
and state is still persisted afterwards. -/
theorem C6_per_subscriber_isolation (doc : Document) (file : StateFile)
    (ws : List Webhook) (md5 : String) (outs : List DeliveryOutcome)
    (now du : String) (changelog old : List String) (ts : String)
    (hp : parse_html doc = some changelog)
    (hl : load_last_changes file = .loaded old ts)
    (hu : test_for_update changelog old = some true)
    (hlen : outs.length = ws.length) :
    ((run doc file (some ws) (some md5) outs now du).posts.map (fun a => a.url)
        = ws.map (fun w => w.url)) ∧
      ((run doc file (some ws) (some md5) outs now du).posts.map (fun a => a.outcome)
        = outs) ∧
      (run doc file (some ws) (some md5) outs now du).persisted
        = some (changelog, now) := by
  have hrun : run doc file (some ws) (some md5) outs now du =
      ⟨deliver_loop ws outs (payload_for (changes_string changelog old) md5 du),
        some (changelog, now), false⟩ := by
    simp [run, hp, hl, hu, send_update_message]
  rw [hrun]
  exact ⟨deliver_loop_map_url ws outs _, deliver_loop_map_outcome ws outs _ hlen, rfl⟩

/-- C6 witness, the spec's example: three subscribers, the second times
out; attempts are made to all three, the report is
delivered/timedOut/delivered, and state is persisted. -/
theorem C6_per_subscriber_isolation_witness :
    ((run sample_doc sample_file (some ws3) (some "m") outs3 "t1" "D").posts.map
        (fun a => a.url) = ws3.map (fun w => w.url)) ∧
      ((run sample_doc sample_file (some ws3) (some "m") outs3 "t1" "D").posts.map
        (fun a => a.outcome) = outs3) ∧
      (run sample_doc sample_file (some ws3) (some "m") outs3 "t1" "D").persisted
        = some (["e1"], "t1") :=
  C6_per_subscriber_isolation sample_doc sample_file ws3 "m" outs3 "t1" "D"
    ["e1"] ["e0"] "t0" (by decide) (by decide) (by decide) (by decide)

/-- C7 counterexample: a state file that is JSON-decodable but lacks the
`"timestamp"` key — corrupt in the claim's sense — is routed through the
`FileNotFoundError` branch: the run seeds a fresh baseline and sends no
notification, but no `.old` backup is made; the unreadable record is
silently overwritten. -/
theorem C7_counterexample :
    run sample_doc (.decoded none (some ["e0"])) none none [] "t1" "D"
      = ⟨[], some (["e1"], "t1"), false⟩ := by
  decide

/-- C7 (amended): for a missing state file, a non-decodable one, or a
decodable one lacking a required key, the run seeds a fresh baseline from
the current snapshot and sends no notification; but the `.old` backup is
made only in the non-decodable case — a decodable file with a missing key
is overwritten without a backup. -/
theorem C7_amended_seed_and_backup_policy (doc : Document) (file : StateFile)
    (whf : Option (List Webhook)) (cs : Option String) (outs : List DeliveryOutcome)
    (now du : String) (changelog : List String)
    (hp : parse_html doc = some changelog)
    (hfile : file = .missing ∨ file = .corrupt ∨
      ∃ ts ch, file = .decoded ts ch ∧ (ts = none ∨ ch = none)) :
    (run doc file whf cs outs now du).posts = [] ∧
      (run doc file whf cs outs now du).persisted = some (changelog, now) ∧
      ((run doc file whf cs outs now du).backupMade = true ↔ file = .corrupt) := by
  rcases hfile with h | h | ⟨ts, ch, h, hmiss⟩
  · subst h; simp [run, hp, load_last_changes]
  · subst h; simp [run, hp, load_last_changes]
  · subst h
    rcases hmiss with h | h
    · subst h
      cases ch with
      | none => simp [run, hp, load_last_changes]
      | some c => simp [run, hp, load_last_changes]
    · subst h
      cases ts with
      | none => simp [run, hp, load_last_changes]
      | some t => simp [run, hp, load_last_changes]

theorem C7_amended_seed_and_backup_policy_witness :
    (run sample_doc .corrupt none none [] "t1" "D").posts = [] ∧
      (run sample_doc .corrupt none none [] "t1" "D").persisted
        = some (["e1"], "t1") ∧
      ((run sample_doc .corrupt none none [] "t1" "D").backupMade = true ↔
        (StateFile.corrupt : StateFile) = .corrupt) :=
  C7_amended_seed_and_backup_policy sample_doc .corrupt none none [] "t1" "D" ["e1"]
    (by decide) (Or.inr (Or.inl rfl))

/-- C8 counterexample: an update is detected and the webhook list loads,
but the checksum fetch fails.  No configuration flag exists: `get_checksum`
always calls `sys.exit(1)`, so the notification does not proceed without
the checksum (no delivery attempt) and nothing is persisted — against the
claim, the failure is fatal even though nothing made the checksum
mandatory. -/
theorem C8_counterexample :
    test_for_update ["e1"] ["e0"] = some true ∧
      run sample_doc sample_file (some [⟨"u1", none, none⟩]) none [] "t1" "D"
        = ⟨[], none, false⟩ := by
  constructor <;> decide

/-- C8 (amended): checksum-fetch failure is always fatal to the run; no
configuration flag can make the notification proceed without it.  On the
notification path with a failed checksum fetch, the run exits before any
delivery attempt and without persisting state. -/
theorem C8_amended_checksum_failure_always_fatal (doc : Document) (file : StateFile)
    (ws : List Webhook) (outs : List DeliveryOutcome) (now du : String)
    (changelog old : List String) (ts : String)
    (hp : parse_html doc = some changelog)
    (hl : load_last_changes file = .loaded old ts)
    (hu : test_for_update changelog old = some true) :
    run doc file (some ws) none outs now du = ⟨[], none, false⟩ := by
  simp [run, hp, hl, hu]

theorem C8_amended_checksum_failure_always_fatal_witness :
    run sample_doc sample_file (some []) none [] "t1" "D" = ⟨[], none, false⟩ :=
  C8_amended_checksum_failure_always_fatal sample_doc sample_file [] [] "t1" "D"
    ["e1"] ["e0"] "t0" (by decide) (by decide) (by decide)

/-- C10: on the notification path each subscriber's payload takes its
`username` from the webhook record when that field is truthy and from the
configured `default_username` otherwise (absent and empty-string fields are
falsy), its `avatar_url` from the record when truthy and the empty string
otherwise, while the `content` and the embed (description, footer, colour,
title) are identical for every subscriber of the run. -/
theorem C10_payload_identity_overrides (doc : Document) (file : StateFile)
    (ws : List Webhook) (md5 : String) (outs : List DeliveryOutcome)
    (now du : String) (changelog old : List String) (ts : String)
    (hp : parse_html doc = some changelog)
    (hl : load_last_changes file = .loaded old ts)
    (hu : test_for_update changelog old = some true) :
    ((run doc file (some ws) (some md5) outs now du).posts.map
        (fun a => a.payload.username)
      = ws.map (fun w => if py_truthy w.username then w.username.getD "" else du)) ∧
      ((run doc file (some ws) (some md5) outs now du).posts.map
          (fun a => a.payload.avatar_url)
        = ws.map (fun w => if py_truthy w.avatar_url then w.avatar_url.getD "" else "")) ∧
      (∀ a ∈ (run doc file (some ws) (some md5) outs now du).posts,
        a.payload.content = update_content ∧
          a.payload.embed = update_embed (changes_string changelog old) md5) := by
  have hrun : run doc file (some ws) (some md5) outs now du =
      ⟨deliver_loop ws outs (payload_for (changes_string changelog old) md5 du),
        some (changelog, now), false⟩ := by
    simp [run, hp, hl, hu, send_update_message]
  rw [hrun]
  refine ⟨?_, ?_, ?_⟩
  · have h := deliver_loop_map_pfield (fun p => p.username) ws outs
      (payload_for (changes_string changelog old) md5 du)
    simpa [payload_for] using h
  · have h := deliver_loop_map_pfield (fun p => p.avatar_url) ws outs
      (payload_for (changes_string changelog old) md5 du)
    simpa [payload_for] using h
  · intro a ha
    obtain ⟨w, _, hpay⟩ := deliver_loop_payload_mem ws outs
      (payload_for (changes_string changelog old) md5 du) a ha
    rw [hpay]
    exact ⟨rfl, rfl⟩

theorem C10_payload_identity_overrides_witness :
    ((run sample_doc sample_file (some ws_mixed) (some "m") [] "t1" "D").posts.map
        (fun a => a.payload.username)
      = ws_mixed.map
          (fun w => if py_truthy w.username then w.username.getD "" else "D")) ∧
      ((run sample_doc sample_file (some ws_mixed) (some "m") [] "t1" "D").posts.map
          (fun a => a.payload.avatar_url)
        = ws_mixed.map
            (fun w => if py_truthy w.avatar_url then w.avatar_url.getD "" else "")) ∧
      (∀ a ∈ (run sample_doc sample_file (some ws_mixed) (some "m") [] "t1" "D").posts,
        a.payload.content = update_content ∧
          a.payload.embed = update_embed (changes_string ["e1"] ["e0"]) "m") :=
  C10_payload_identity_overrides sample_doc sample_file ws_mixed "m" [] "t1" "D"
    ["e1"] ["e0"] "t0" (by decide) (by decide) (by decide)

end ArcdpsUpdater
